import Mathlib

/-!
Verification of the retry/scope engine of the db-utils repository
(src/db_utils/utils.py and src/db_utils/transaction.py).

Error kinds (Python exception classes) are modelled as natural numbers.
The Python class hierarchy is modelled by a boolean relation: when it
holds of a pair (e, k), an error of kind e is an instance of the class
k, so an exception clause listing k catches a raised error of kind e.
The membership test used by the source at utils.py:66 is the exact
identity test of the Python in-operator on a tuple of classes, which is
different from exception-clause matching when proper subclasses occur.
-/

/-- An error kind: a Python exception class, encoded as a natural number. -/
abbrev ErrKind := Nat

/-- The class hierarchy: hier e k means an error of kind e is an instance
of class k, so an exception clause listing k catches it. -/
abbrev Hier := ErrKind → ErrKind → Bool

/-- Matching of a raised error of kind e against a Python exception clause
listing the given classes, as in the source lines
utils.py:56 and transaction.py:125: instance (subclass) matching. -/
def pythonExceptMatch (hier : Hier) (clauses : List ErrKind) (e : ErrKind) : Bool :=
  clauses.any (fun k => hier e k)

/-- Behaviour of one call to the exit method of a wrapped context manager:
it either raises an error or returns a suppression flag. -/
inductive ScopeExit where
  | raises (e : ErrKind)
  | returns (suppressed : Bool)
deriving DecidableEq

/-- The tail of ExceptionManager exit, utils.py:63-70: the incoming block
error is tested with the in-operator against the suppress tuple (exact
kind membership); with no error the success flag is set. The first
component is what the exit method does (Sum.inl e: it raises e;
Sum.inr b: it returns b), the second is the final success flag. -/
def exceptionManagerExitTail (suppress : List ErrKind) (exc : Option ErrKind) :
    Sum ErrKind Bool × Bool :=
  match exc with
  | some e => if suppress.contains e then (Sum.inr true, false) else (Sum.inr false, false)
  | none => (Sum.inr false, true)

/-- ExceptionManager exit, utils.py:52-70. The scope argument is the
behaviour of the wrapped sub context manager exit on the incoming error
(none when no context manager was supplied). Returns what the exit
method does together with the final success flag. -/
def exceptionManagerExit (hier : Hier) (suppress : List ErrKind)
    (scope : Option (Option ErrKind → ScopeExit)) (exc : Option ErrKind) :
    Sum ErrKind Bool × Bool :=
  match scope with
  | some sexit =>
    match sexit exc with
    | ScopeExit.raises g =>
        if pythonExceptMatch hier suppress g then (Sum.inr true, false)
        else (Sum.inl g, false)
    | ScopeExit.returns true => (Sum.inr true, true)
    | ScopeExit.returns false => exceptionManagerExitTail suppress exc
  | none => exceptionManagerExitTail suppress exc

/-- Python with-statement propagation: given what the exit method did and
the pending block error, the error that propagates to the caller of the
with-statement (none when nothing propagates). -/
def withPropagated (exitResult : Sum ErrKind Bool) (exc : Option ErrKind) : Option ErrKind :=
  match exitResult with
  | Sum.inl g => some g
  | Sum.inr true => none
  | Sum.inr false => exc

/-- Behaviour of the consumer and collaborators across the attempts of one
run of the generator: for each attempt index (1-based), what the setup
callback raises, whether a wrapped context manager is present, what its
enter raises, what its exit does given the pending error, and what the
wrapped block raises. -/
structure Behavior where
  setup : Nat → Option ErrKind
  hasScope : Bool
  scopeEnter : Nat → Option ErrKind
  scopeExit : Nat → Option ErrKind → ScopeExit
  block : Nat → Option ErrKind

/-- Record of one yielded attempt: its 1-based index, the suppress tuple
its ExceptionManager was constructed with, whether the block body ran,
and the final success flag. -/
structure AttemptRecord where
  index : Nat
  suppressSet : List ErrKind
  blockRan : Bool
  success : Bool
deriving DecidableEq

/-- How one attempt ends for the consumer loop: the with-statement either
completes (possibly after suppressing) or propagates an error. -/
inductive AttemptEnd where
  | completed
  | raised (e : ErrKind)
deriving DecidableEq

/-- One execution of: with ExceptionManager(suppress, setup, cm): block.
Enter (utils.py:45-50) runs the setup then the scope enter, neither
guarded; then the block runs and the exit method classifies, with
with-statement propagation semantics. -/
def runAttempt (hier : Hier) (b : Behavior) (suppress : List ErrKind) (i : Nat) :
    AttemptRecord × AttemptEnd :=
  match b.setup i with
  | some e => (⟨i, suppress, false, false⟩, AttemptEnd.raised e)
  | none =>
    if b.hasScope ∧ (b.scopeEnter i).isSome then
      (⟨i, suppress, false, false⟩, AttemptEnd.raised ((b.scopeEnter i).getD 0))
    else
      let exc := b.block i
      let scope := if b.hasScope then some (b.scopeExit i) else none
      let r := exceptionManagerExit hier suppress scope exc
      match withPropagated r.1 exc with
      | some g => (⟨i, suppress, true, r.2⟩, AttemptEnd.raised g)
      | none => (⟨i, suppress, true, r.2⟩, AttemptEnd.completed)

/-- Result of consuming the generator: the attempts yielded in order, the
error propagating to the caller (none when the consumer loop completes
without one), and the delays passed to the sleep call, in order. -/
structure GenResult where
  attempts : List AttemptRecord
  outcome : Option ErrKind
  sleeps : List ℚ
deriving DecidableEq

/-- The loop of exception_managers_until_success, utils.py:100-110, over
attempt indices i, i+1, ... with the given fuel (the count of loop
iterations left); m is max_attempts. An attempt whose index is below m
gets the retry tuple as suppress set, the last gets the empty one; after
a yielded attempt the generator stops on success, is abandoned when an
error propagates, and otherwise sleeps (when delay is truthy) and
continues. -/
def emusAux (hier : Hier) (retry : List ErrKind) (delay : ℚ) (b : Behavior) (m : Nat) :
    Nat → Nat → GenResult
  | 0, _ => ⟨[], none, []⟩
  | fuel+1, i =>
    let suppress := if i < m then retry else []
    match runAttempt hier b suppress i with
    | (rec, AttemptEnd.raised e) => ⟨[rec], some e, []⟩
    | (rec, AttemptEnd.completed) =>
      if rec.success then ⟨[rec], none, []⟩
      else
        let rest := emusAux hier retry delay b m fuel (i+1)
        ⟨rec :: rest.attempts, rest.outcome,
         (if delay = 0 then [] else [delay]) ++ rest.sleeps⟩

/-- exception_managers_until_success, utils.py:73-110, consumed by a
for-loop wrapping the block as in the module docstring. The xrange from
1 to max_attempts+1 yields max(0, max_attempts) indices. -/
def exception_managers_until_success (hier : Hier) (retry : List ErrKind) (delay : ℚ)
    (b : Behavior) (max_attempts : Int) : GenResult :=
  emusAux hier retry delay b max_attempts.toNat max_attempts.toNat 1

example :
    exception_managers_until_success (fun a b => a == b) [4] 0
      ⟨fun _ => none, false, fun _ => none, fun _ _ => ScopeExit.returns false,
       fun i => if i = 1 then some 4 else none⟩ 3 =
    ⟨[⟨1, [4], true, false⟩, ⟨2, [4], true, true⟩], none, []⟩ := by decide

/-- Behaviour of the collaborators across the attempts of one call of a
function wrapped by the decorator of transaction.py:112-134: for each
1-based attempt index, what the isolation level setup raises, what the
enter of the commit_on_success scope raises, what its exit raises given
the pending error, what the decorated function raises, and the value it
returns when it raises nothing.
The commit_on_success scope itself is modelled from the spec: an external
transactional scope with explicit begin and commit-or-rollback
boundaries whose exit may raise a commit-time or rollback-time error but
never suppresses the pending one. -/
structure DecBehavior where
  setup : Nat → Option ErrKind
  scopeEnter : Nat → Option ErrKind
  scopeExit : Nat → Option ErrKind → Option ErrKind
  func : Nat → Option ErrKind
  funcVal : Nat → Nat

/-- Record of one iteration of the wrapper loop of the decorator: its
1-based index and whether the decorated function body ran. -/
structure DecIter where
  index : Nat
  funcRan : Bool
deriving DecidableEq

/-- How a call of the wrapped function ends: it returns a value (none is
the Python None returned when the loop exhausts without returning) or an
error propagates to its caller. -/
inductive DecOutcome where
  | returns (v : Option Nat)
  | raises (e : ErrKind)
deriving DecidableEq

/-- Result of one call of the wrapped function: the loop iterations in
order, the outcome, and the delays passed to the sleep call, in order. -/
structure DecResult where
  iters : List DecIter
  outcome : DecOutcome
  sleeps : List ℚ
deriving DecidableEq

/-- The try-block of the wrapper, transaction.py:121-124: the isolation
level setup, then the commit_on_success enter, then the return of the
function value from inside the scope, with the scope exit running on the
way out and its raised error replacing the pending one. Sum.inl is an
error reaching the except clause, Sum.inr a returned value. -/
def decTryBody (b : DecBehavior) (i : Nat) : DecIter × Sum ErrKind Nat :=
  match b.setup i with
  | some e => (⟨i, false⟩, Sum.inl e)
  | none =>
    match b.scopeEnter i with
    | some e => (⟨i, false⟩, Sum.inl e)
    | none =>
      match b.func i with
      | some f =>
        match b.scopeExit i (some f) with
        | some g => (⟨i, true⟩, Sum.inl g)
        | none => (⟨i, true⟩, Sum.inl f)
      | none =>
        match b.scopeExit i none with
        | some g => (⟨i, true⟩, Sum.inl g)
        | none => (⟨i, true⟩, Sum.inr (b.funcVal i))

/-- The wrapper loop of the decorator, transaction.py:119-132, over
attempt indices i, i+1, ... with the given fuel; m is max_attempts. An
error reaching the except clause is matched by instance semantics
against the exceptions tuple; a matched error is re-raised on the last
attempt and otherwise retried after the sleep; an unmatched error
propagates at once. -/
def cosAux (hier : Hier) (exceptions : List ErrKind) (delay : ℚ) (b : DecBehavior) (m : Nat) :
    Nat → Nat → DecResult
  | 0, _ => ⟨[], DecOutcome.returns none, []⟩
  | fuel+1, i =>
    match decTryBody b i with
    | (it, Sum.inr v) => ⟨[it], DecOutcome.returns (some v), []⟩
    | (it, Sum.inl e) =>
      if pythonExceptMatch hier exceptions e then
        if i == m then ⟨[it], DecOutcome.raises e, []⟩
        else
          let rest := cosAux hier exceptions delay b m fuel (i+1)
          ⟨it :: rest.iters, rest.outcome,
           (if 0 < delay then [delay] else []) ++ rest.sleeps⟩
      else ⟨[it], DecOutcome.raises e, []⟩

/-- One call of a function wrapped by commit_on_success_with_isolation_level,
transaction.py:112-134. The xrange from 1 to max_attempts+1 yields
max(0, max_attempts) indices. -/
def commit_on_success_with_isolation_level (hier : Hier) (exceptions : List ErrKind)
    (delay : ℚ) (b : DecBehavior) (max_attempts : Int) : DecResult :=
  cosAux hier exceptions delay b max_attempts.toNat max_attempts.toNat 1

/-- The generator Behavior induced by consuming exception_managers_until_success
with the same collaborators the decorator composes: the isolation level
setup as the setup callback, the commit_on_success scope as the wrapped
context manager, and the decorated function body as the block. -/
def liftDecBehavior (b : DecBehavior) : Behavior where
  setup := b.setup
  hasScope := true
  scopeEnter := b.scopeEnter
  scopeExit := fun i exc =>
    match b.scopeExit i exc with
    | some g => ScopeExit.raises g
    | none => ScopeExit.returns false
  block := b.func

/-- The while-loop of commit_open_transactions, transaction.py:37-38,
on the nesting depth. Modelled from the spec: each commit on the session
collapses one open scope, so the depth is decremented until it reaches
one. Returns the final depth and the number of commits issued. -/
def commitLoop : Nat → Nat × Nat
  | 0 => (0, 0)
  | 1 => (1, 0)
  | d+2 =>
    let p := commitLoop (d+1)
    (p.1, p.2 + 1)

/-- Result of commit_open_transactions: whether a
TransactionManagementError was raised, the final nesting depth, and the
number of commits issued. -/
structure TxResult where
  raised : Bool
  depth : Nat
  commits : Nat
deriving DecidableEq

/-- commit_open_transactions, transaction.py:24-44. The ambient
connection transaction state is modelled from the spec as its length,
the nesting depth: the per-session count of currently open scopes, with
the empty state falsy. -/
def commit_open_transactions (transactions_to_close : Nat) (depth : Nat) : TxResult :=
  if depth ≠ 0 then
    if depth ≤ transactions_to_close then
      let p := commitLoop depth
      ⟨false, p.1, p.2⟩
    else ⟨true, depth, 0⟩
  else ⟨false, depth, 0⟩

/-- The error kind of TransactionManagementError, the nesting error
raised by commit_open_transactions. -/
def nestingErrorKind : ErrKind := 5

/-- The error raised by the isolation level setup functions of
transaction.py:47-93 as a function of the declared closable count and
the current nesting depth: the nesting error exactly when
commit_open_transactions raises. -/
def isolationSetupError (transactions_to_close : Nat) (depth : Nat) : Option ErrKind :=
  if (commit_open_transactions transactions_to_close depth).raised then some nestingErrorKind
  else none

example : commit_open_transactions 3 3 = ⟨false, 1, 2⟩ := by decide
example : commit_open_transactions 1 2 = ⟨true, 2, 0⟩ := by decide

example :
    commit_on_success_with_isolation_level (fun a b => a == b) [4] 0
      ⟨fun _ => none, fun _ => none, fun _ _ => none,
       fun i => if i = 1 then some 4 else none, fun i => i + 10⟩ 3 =
    ⟨[⟨1, true⟩, ⟨2, true⟩], DecOutcome.returns (some 12), []⟩ := by decide

/-- A class hierarchy in which kind 1 is a proper subclass of kind 0 and
every kind is an instance of itself. -/
def hierSub : Hier := fun a b => a == b || (a == 1 && b == 0)

/-- A hierarchy with no proper subclassing: a clause catches exactly its
own kind. -/
def hierEq : Hier := fun a b => a == b

/-- Behaviour for the sleep scenarios: the block raises kind 4 on the
first attempt only, no scope, setup never raises. -/
def sleepGenBehavior : Behavior :=
  ⟨fun _ => none, false, fun _ => none, fun _ _ => ScopeExit.returns false,
   fun i => if i = 1 then some 4 else none⟩

/-- Decorator behaviour for the sleep scenarios: the decorated function
raises kind 4 on the first attempt only, setup and scope never raise. -/
def sleepDecBehavior : DecBehavior :=
  ⟨fun _ => none, fun _ => none, fun _ _ => none,
   fun i => if i = 1 then some 4 else none, fun _ => 0⟩

/-- Decorator behaviour whose isolation level setup always raises the
nesting error, as it does when the open nesting depth (two) exceeds the
declared closable count (zero). -/
def nestingSetupBehavior : DecBehavior :=
  ⟨fun _ => isolationSetupError 0 2, fun _ => none, fun _ _ => none,
   fun _ => none, fun _ => 0⟩

/-- Decorator behaviour whose decorated function always raises kind 1,
while setup and scope never raise. -/
def subclassRaiseBehavior : DecBehavior :=
  ⟨fun _ => none, fun _ => none, fun _ _ => none, fun _ => some 1, fun _ => 0⟩

/-- Decorator behaviour for the equivalence witness: the decorated
function raises kind 3 on the first attempt and returns a value on the
second; setup and scope never raise. -/
def agreeingBehavior : DecBehavior :=
  ⟨fun _ => none, fun _ => none, fun _ _ => none,
   fun i => if i = 1 then some 3 else none, fun i => i + 20⟩

/-- The expected decorator outcome given the generator run result: the
same propagated error, or the value of the decorated function at the
successful attempt (the last yielded one), or None when no attempt ran. -/
def expectedDecOutcome (b : DecBehavior) (i : Nat) (g : GenResult) : DecOutcome :=
  match g.outcome with
  | some e => DecOutcome.raises e
  | none =>
    if g.attempts.length = 0 then DecOutcome.returns none
    else DecOutcome.returns (some (b.funcVal (i + g.attempts.length - 1)))

/-- The error kind of the NameError the Python runtime raises at
utils.py:110: the sleep call refers to the name time, which is never
imported in utils.py (nor in transaction.py). -/
def nameErrorKind : ErrKind := 6

/-- The loop of exception_managers_until_success as the Python runtime
executes it: identical to emusAux except at the sleep line. With a falsy
delay the line is skipped; with a truthy delay evaluating the unbound
name time raises a NameError inside the generator, which the consumer
for-loop propagates, aborting the sequence after the current attempt. -/
def emusAuxPy (hier : Hier) (retry : List ErrKind) (delay : ℚ) (b : Behavior) (m : Nat) :
    Nat → Nat → GenResult
  | 0, _ => ⟨[], none, []⟩
  | fuel+1, i =>
    let suppress := if i < m then retry else []
    match runAttempt hier b suppress i with
    | (rec, AttemptEnd.raised e) => ⟨[rec], some e, []⟩
    | (rec, AttemptEnd.completed) =>
      if rec.success then ⟨[rec], none, []⟩
      else
        if delay = 0 then
          let rest := emusAuxPy hier retry delay b m fuel (i+1)
          ⟨rec :: rest.attempts, rest.outcome, rest.sleeps⟩
        else ⟨[rec], some nameErrorKind, []⟩

/-- exception_managers_until_success under the runtime semantics of the
module as it stands: the missing time import turns every reached sleep
into a NameError. Coincides with exception_managers_until_success for a
falsy delay, where the sleep line is never reached. -/
def exception_managers_until_success_py (hier : Hier) (retry : List ErrKind) (delay : ℚ)
    (b : Behavior) (max_attempts : Int) : GenResult :=
  emusAuxPy hier retry delay b max_attempts.toNat max_attempts.toNat 1

/-- Behaviour whose block raises kind 4 on every attempt, with no scope
and a setup that never raises. -/
def alwaysFailBehavior : Behavior :=
  ⟨fun _ => none, false, fun _ => none, fun _ _ => ScopeExit.returns false,
   fun _ => some 4⟩

theorem commitLoop_eq : ∀ d : Nat, commitLoop d = (min d 1, d - 1)
  | 0 => rfl
  | 1 => rfl
  | (d+2) => by
    rw [commitLoop, commitLoop_eq (d+1)]
    simp [Nat.min_def]

/-- C3: commit_open_transactions succeeds when the nesting depth is at
most the declared closable count, leaving the depth at most one and
issuing depth minus one commits (zero when the depth is at most one);
when the depth exceeds the count it raises the nesting error with zero
commits and the depth unchanged. -/
theorem c3_commit_open_transactions (toClose depth : Nat) :
    (depth ≤ toClose →
      (commit_open_transactions toClose depth).raised = false ∧
      (commit_open_transactions toClose depth).depth ≤ 1 ∧
      (commit_open_transactions toClose depth).commits = depth - 1) ∧
    (toClose < depth →
      commit_open_transactions toClose depth = ⟨true, depth, 0⟩) := by
  constructor
  · intro h
    unfold commit_open_transactions
    by_cases h0 : depth = 0
    · subst h0; simp
    · simp [h0, h, commitLoop_eq, Nat.min_def]
      split <;> omega
  · intro h
    have h0 : depth ≠ 0 := by omega
    have h1 : ¬ depth ≤ toClose := by omega
    unfold commit_open_transactions
    simp [h0, h1]

theorem c3_witness :
    ((commit_open_transactions 3 2).raised = false ∧
      (commit_open_transactions 3 2).depth ≤ 1 ∧
      (commit_open_transactions 3 2).commits = 2 - 1) ∧
    commit_open_transactions 0 2 = ⟨true, 2, 0⟩ :=
  ⟨(c3_commit_open_transactions 3 2).1 (by decide),
   (c3_commit_open_transactions 0 2).2 (by decide)⟩

/-- C10: with max_attempts below one, the generator yields zero attempts
and the wrapped function returns None without invoking the decorated
function, the isolation level setup, or any scope, and without sleeping,
for every behaviour of the collaborators. -/
theorem c10_nonpositive_budget (hier : Hier) (retry : List ErrKind) (delay : ℚ)
    (b : Behavior) (db : DecBehavior) (N : Int) (hN : N < 1) :
    exception_managers_until_success hier retry delay b N = ⟨[], none, []⟩ ∧
    commit_on_success_with_isolation_level hier retry delay db N =
      ⟨[], DecOutcome.returns none, []⟩ := by
  have h0 : N.toNat = 0 := by omega
  constructor
  · rw [exception_managers_until_success, h0, emusAux]
  · rw [commit_on_success_with_isolation_level, h0, cosAux]

theorem c10_witness :
    exception_managers_until_success (fun a b => a == b) [4] 1
      ⟨fun _ => some 9, true, fun _ => some 9, fun _ _ => ScopeExit.raises 9,
       fun _ => some 9⟩ 0 = ⟨[], none, []⟩ ∧
    commit_on_success_with_isolation_level (fun a b => a == b) [4] 1
      ⟨fun _ => some 9, fun _ => some 9, fun _ _ => some 9, fun _ => some 9,
       fun _ => 0⟩ 0 = ⟨[], DecOutcome.returns none, []⟩ :=
  c10_nonpositive_budget (fun a b => a == b) [4] 1
    ⟨fun _ => some 9, true, fun _ => some 9, fun _ _ => ScopeExit.raises 9, fun _ => some 9⟩
    ⟨fun _ => some 9, fun _ => some 9, fun _ _ => some 9, fun _ => some 9, fun _ => 0⟩
    0 (by decide)

theorem getLast?_cons_of_ne_nil {α : Type} (a : α) (l : List α) (h : l ≠ []) :
    (a :: l).getLast? = l.getLast? := by
  cases l with
  | nil => exact absurd rfl h
  | cons b t => exact List.getLast?_cons_cons

/-- Generator loop invariant when the block raises an error of a kind in
the retry tuple on every attempt: every loop iteration yields a failed
attempt, the final one gets the empty suppress set and its error
propagates. -/
theorem emusAux_allfail (hier : Hier) (retry : List ErrKind) (delay : ℚ)
    (b : Behavior) (m : Nat)
    (hsetup : ∀ i, b.setup i = none) (hscope : b.hasScope = false)
    (hblock : ∀ i, ∃ e, b.block i = some e ∧ retry.contains e = true) :
    ∀ fuel, ∀ i, i + fuel = m + 1 → 1 ≤ fuel →
      (emusAux hier retry delay b m fuel i).attempts.length = fuel ∧
      (emusAux hier retry delay b m fuel i).attempts.getLast? =
        some ⟨m, [], true, false⟩ ∧
      (emusAux hier retry delay b m fuel i).outcome = b.block m := by
  intro fuel
  induction fuel with
  | zero => intro i _ h1; omega
  | succ f ih =>
    intro i hi _
    rcases Nat.eq_zero_or_pos f with hf0 | hfpos
    · subst hf0
      have him : i = m := by omega
      subst him
      obtain ⟨e, he, _⟩ := hblock i
      simp [emusAux, runAttempt, hsetup, hscope, he, exceptionManagerExit,
        exceptionManagerExitTail, withPropagated]
    · have him : i < m := by omega
      obtain ⟨e, he, hmem⟩ := hblock i
      have hrest := ih (i+1) (by omega) (by omega)
      simp only [emusAux, runAttempt, hsetup, hscope, him, if_true,
        Bool.false_eq_true, false_and, if_false, he, exceptionManagerExit,
        exceptionManagerExitTail, hmem, withPropagated]
      refine ⟨by simpa using hrest.1, ?_, hrest.2.2⟩
      rw [getLast?_cons_of_ne_nil]
      · exact hrest.2.1
      · intro hnil
        have := hrest.1
        rw [hnil] at this
        simp at this
        omega

theorem emusAuxPy_eq_zero_delay (hier : Hier) (retry : List ErrKind) (b : Behavior)
    (m : Nat) :
    ∀ fuel i, emusAuxPy hier retry 0 b m fuel i = emusAux hier retry 0 b m fuel i := by
  intro fuel
  induction fuel with
  | zero => intro i; rfl
  | succ f ih =>
    intro i
    rw [emusAuxPy, emusAux]
    rcases hr : runAttempt hier b (if i < m then retry else []) i with ⟨rec, ae⟩
    cases ae with
    | raised e => rfl
    | completed =>
      rcases hs : rec.success with hv | hv <;> simp [hs, ih]

/-- Runtime behaviour at a truthy delay: the first attempt fails with a
suppressed kind-4 error, the generator reaches the sleep line, the
unbound name time raises a NameError, and the sequence aborts with one
attempt yielded. -/
theorem emusAuxPy_first_sleep_crash (delay : ℚ) (hdelay : delay ≠ 0) (b : Behavior)
    (hsetup : b.setup 1 = none) (hscope : b.hasScope = false)
    (hblock : b.block 1 = some 4) :
    (exception_managers_until_success_py hierEq [4] delay b 3).attempts.length = 1 ∧
    (exception_managers_until_success_py hierEq [4] delay b 3).outcome =
      some nameErrorKind := by
  constructor <;>
  · show _
    rw [exception_managers_until_success_py]
    simp [emusAuxPy, runAttempt, hsetup, hscope, hblock, exceptionManagerExit,
      exceptionManagerExitTail, withPropagated, hdelay]

/-- C1 counterexample: with the decorator-default truthy delay one tenth
and a block raising the retryable kind 4 on every attempt of a budget of
three, the runtime yields one attempt, not three, and a NameError (the
name time is unbound at utils.py:110) propagates instead of the block
error of the last attempt. -/
theorem c1_counterexample :
    (exception_managers_until_success_py hierEq [4] (1/10)
      alwaysFailBehavior 3).attempts.length = 1 ∧
    ¬ (exception_managers_until_success_py hierEq [4] (1/10)
      alwaysFailBehavior 3).attempts.length = 3 ∧
    (exception_managers_until_success_py hierEq [4] (1/10)
      alwaysFailBehavior 3).outcome = some nameErrorKind ∧
    ¬ (exception_managers_until_success_py hierEq [4] (1/10)
      alwaysFailBehavior 3).outcome = some 4 := by
  have h := emusAuxPy_first_sleep_crash (1/10) (by norm_num) alwaysFailBehavior rfl rfl rfl
  refine ⟨h.1, by rw [h.1]; decide, h.2, by rw [h.2]; decide⟩

/-- C1 amended: with a falsy delay (the source default delay=0, so the
sleep line is never reached), a budget of at least one and a block
raising an error of a kind in the retry tuple on every attempt (no
wrapped scope, setup never raising), the sequence yields exactly
max_attempts attempts, the last of them is constructed with the empty
suppress set, and the error of the last attempt propagates to the caller
unchanged; with a truthy delay the missing time import aborts the
sequence with a NameError after the first suppressed failure. -/
theorem c1_budget_exhausted (hier : Hier) (retry : List ErrKind) (delay : ℚ)
    (b : Behavior) (N : Int) (hN : 1 ≤ N) (hdelay : delay = 0)
    (hsetup : ∀ i, b.setup i = none) (hscope : b.hasScope = false)
    (hblock : ∀ i, ∃ e, b.block i = some e ∧ retry.contains e = true) :
    (exception_managers_until_success_py hier retry delay b N).attempts.length = N.toNat ∧
    (exception_managers_until_success_py hier retry delay b N).attempts.getLast? =
      some ⟨N.toNat, [], true, false⟩ ∧
    (exception_managers_until_success_py hier retry delay b N).outcome =
      b.block N.toNat := by
  subst hdelay
  rw [show exception_managers_until_success_py hier retry 0 b N =
      emusAux hier retry 0 b N.toNat N.toNat 1 from
    emusAuxPy_eq_zero_delay hier retry b N.toNat N.toNat 1]
  exact emusAux_allfail hier retry 0 b N.toNat hsetup hscope hblock N.toNat 1
    (by omega) (by omega)

theorem c1_witness :
    (exception_managers_until_success_py hierEq [4] 0
      alwaysFailBehavior 3).attempts.length = (3 : Int).toNat ∧
    (exception_managers_until_success_py hierEq [4] 0
      alwaysFailBehavior 3).attempts.getLast? = some ⟨(3 : Int).toNat, [], true, false⟩ ∧
    (exception_managers_until_success_py hierEq [4] 0
      alwaysFailBehavior 3).outcome = alwaysFailBehavior.block (3 : Int).toNat :=
  c1_budget_exhausted hierEq [4] 0 alwaysFailBehavior 3 (by decide) rfl
    (fun _ => rfl) rfl (fun _ => ⟨4, rfl, rfl⟩)

/-- Generator loop invariant when the block raises a retryable error on
the attempts up to K and then completes: iterations from i up to K yield
failed attempts, the iteration at K+1 yields a successful one and the
loop stops. -/
theorem emusAux_failK (hier : Hier) (retry : List ErrKind) (delay : ℚ)
    (b : Behavior) (m K : Nat)
    (hsetup : ∀ i, b.setup i = none) (hscope : b.hasScope = false)
    (hfail : ∀ i, 1 ≤ i → i ≤ K → ∃ e, b.block i = some e ∧ retry.contains e = true)
    (hsucc : b.block (K+1) = none) (hK : K + 1 ≤ m) :
    ∀ fuel, ∀ i, i + fuel = m + 1 → 1 ≤ i → i ≤ K + 1 →
      (emusAux hier retry delay b m fuel i).attempts.map (fun r => r.success) =
        List.replicate (K + 1 - i) false ++ [true] ∧
      (emusAux hier retry delay b m fuel i).attempts.length = K + 2 - i ∧
      (emusAux hier retry delay b m fuel i).outcome = none := by
  intro fuel
  induction fuel with
  | zero => intro i hi _ hiK; omega
  | succ f ih =>
    intro i hi h1 hiK
    rcases Nat.lt_or_ge i (K+1) with hlt | hge
    · have him : i < m := by omega
      obtain ⟨e, he, hmem⟩ := hfail i h1 (by omega)
      have hrest := ih (i+1) (by omega) (by omega) (by omega)
      simp only [emusAux, runAttempt, hsetup, hscope, him, if_true,
        Bool.false_eq_true, false_and, if_false, he, exceptionManagerExit,
        exceptionManagerExitTail, hmem, withPropagated]
      refine ⟨?_, by simp [hrest.2.1]; omega, hrest.2.2⟩
      simp only [List.map_cons, hrest.1]
      have : K + 1 - i = (K + 1 - (i+1)) + 1 := by omega
      rw [this, List.replicate_succ]
      rfl
    · have him : i = K + 1 := by omega
      subst him
      simp [emusAux, runAttempt, hsetup, hscope, hsucc, exceptionManagerExit,
        exceptionManagerExitTail, withPropagated]

/-- C2 counterexample: the block raises the retryable kind 4 exactly on
its first execution (K=1) and would then complete, with max_attempts
three and the decorator-default truthy delay one tenth: the runtime
yields one attempt, not K+1=2, and a NameError (the name time is
unbound at utils.py:110) propagates instead of the sequence stopping
successfully. -/
theorem c2_counterexample :
    (exception_managers_until_success_py hierEq [4] (1/10)
      sleepGenBehavior 3).attempts.length = 1 ∧
    ¬ (exception_managers_until_success_py hierEq [4] (1/10)
      sleepGenBehavior 3).attempts.length = 2 ∧
    (exception_managers_until_success_py hierEq [4] (1/10)
      sleepGenBehavior 3).outcome = some nameErrorKind ∧
    ¬ (exception_managers_until_success_py hierEq [4] (1/10)
      sleepGenBehavior 3).outcome = none := by
  have h := emusAuxPy_first_sleep_crash (1/10) (by norm_num) sleepGenBehavior rfl rfl rfl
  refine ⟨h.1, by rw [h.1]; decide, h.2, by rw [h.2]; decide⟩

/-- C2 amended: with a falsy delay (the source default delay=0, so the
sleep line is never reached) and a block raising an error of a kind in
the retry tuple on exactly its first K executions, K below max_attempts,
then completing (no wrapped scope, setup never raising), the sequence
yields exactly K+1 attempts, only the last of them reports success, and
no attempt is produced after the successful one; nothing propagates.
With a truthy delay and K at least one, the missing time import aborts
the sequence with a NameError after the first suppressed failure. -/
theorem c2_retry_until_success (hier : Hier) (retry : List ErrKind) (delay : ℚ)
    (b : Behavior) (N : Int) (K : Nat) (hK : (K : Int) + 1 ≤ N) (hdelay : delay = 0)
    (hsetup : ∀ i, b.setup i = none) (hscope : b.hasScope = false)
    (hfail : ∀ i, 1 ≤ i → i ≤ K → ∃ e, b.block i = some e ∧ retry.contains e = true)
    (hsucc : b.block (K+1) = none) :
    (exception_managers_until_success_py hier retry delay b N).attempts.length = K + 1 ∧
    (exception_managers_until_success_py hier retry delay b N).attempts.map
      (fun r => r.success) = List.replicate K false ++ [true] ∧
    (exception_managers_until_success_py hier retry delay b N).outcome = none := by
  subst hdelay
  rw [show exception_managers_until_success_py hier retry 0 b N =
      emusAux hier retry 0 b N.toNat N.toNat 1 from
    emusAuxPy_eq_zero_delay hier retry b N.toNat N.toNat 1]
  have h := emusAux_failK hier retry 0 b N.toNat K hsetup hscope hfail hsucc
    (by omega) N.toNat 1 (by omega) (by omega) (by omega)
  have h2 := h.2.1
  refine ⟨by omega, by simpa using h.1, h.2.2⟩

theorem c2_witness :
    (exception_managers_until_success_py (fun a b => a == b) [4] 0
      ⟨fun _ => none, false, fun _ => none, fun _ _ => ScopeExit.returns false,
       fun i => if i ≤ 2 then some 4 else none⟩ 5).attempts.length = 2 + 1 ∧
    (exception_managers_until_success_py (fun a b => a == b) [4] 0
      ⟨fun _ => none, false, fun _ => none, fun _ _ => ScopeExit.returns false,
       fun i => if i ≤ 2 then some 4 else none⟩ 5).attempts.map
      (fun r => r.success) = List.replicate 2 false ++ [true] ∧
    (exception_managers_until_success_py (fun a b => a == b) [4] 0
      ⟨fun _ => none, false, fun _ => none, fun _ _ => ScopeExit.returns false,
       fun i => if i ≤ 2 then some 4 else none⟩ 5).outcome = none :=
  c2_retry_until_success (fun a b => a == b) [4] 0
    ⟨fun _ => none, false, fun _ => none, fun _ _ => ScopeExit.returns false,
     fun i => if i ≤ 2 then some 4 else none⟩ 5 2 (by decide) rfl
    (fun _ => rfl) rfl
    (fun i h1 h2 => ⟨4, by simp [h2], rfl⟩) (by decide)

/-- C9: when the wrapped scope of an attempt suppresses on its own exit
(returns a truthy flag without raising), the exit of the
ExceptionManager sets the success flag and suppresses, so nothing
propagates and the sequence treats the attempt as successful and yields
no further attempt, whatever the block raised and whatever the suppress
set, the empty one of the final attempt included. -/
theorem c9_scope_suppression (hier : Hier) (retry : List ErrKind) (delay : ℚ)
    (b : Behavior) (N : Int) (hN : 1 ≤ N)
    (hscope : b.hasScope = true) (hsetup : b.setup 1 = none)
    (henter : b.scopeEnter 1 = none)
    (hexit : ∀ exc, b.scopeExit 1 exc = ScopeExit.returns true) :
    (∀ suppress exc,
      exceptionManagerExit hier suppress (some (b.scopeExit 1)) exc = (Sum.inr true, true)) ∧
    exception_managers_until_success hier retry delay b N =
      ⟨[⟨1, (if 1 < N.toNat then retry else []), true, true⟩], none, []⟩ := by
  have hmain : ∀ suppress exc,
      exceptionManagerExit hier suppress (some (b.scopeExit 1)) exc = (Sum.inr true, true) := by
    intro suppress exc
    rw [exceptionManagerExit, hexit]
  refine ⟨hmain, ?_⟩
  obtain ⟨f, hf⟩ : ∃ f, N.toNat = f + 1 := ⟨N.toNat - 1, by omega⟩
  rw [exception_managers_until_success, hf, emusAux, runAttempt, hsetup]
  simp only [hscope, henter, Option.isSome_none, true_and, Bool.false_eq_true, if_false,
    and_false, if_true, hmain, withPropagated, hf]

theorem c9_witness :
    (∀ suppress exc,
      exceptionManagerExit (fun a b => a == b) suppress
        (some ((⟨fun _ => none, true, fun _ => none, fun _ _ => ScopeExit.returns true,
                 fun _ => some 7⟩ : Behavior).scopeExit 1)) exc = (Sum.inr true, true)) ∧
    exception_managers_until_success (fun a b => a == b) [4] 1
      ⟨fun _ => none, true, fun _ => none, fun _ _ => ScopeExit.returns true,
       fun _ => some 7⟩ 1 =
      ⟨[⟨1, (if 1 < (1 : Int).toNat then [4] else []), true, true⟩], none, []⟩ :=
  c9_scope_suppression (fun a b => a == b) [4] 1
    ⟨fun _ => none, true, fun _ => none, fun _ _ => ScopeExit.returns true, fun _ => some 7⟩
    1 (by decide) rfl rfl rfl (fun _ => rfl)

/-- C4 counterexample: the block raises kind 2, which is not in the
suppress tuple of kinds [1], yet when the scope exit itself raises the
suppressible kind 1 during the same exit, the exit method returns a
truthy flag (utils.py:57), so nothing propagates out of the attempt: the
non-suppressible block error is swallowed, not surfaced unchanged. -/
theorem c4_counterexample :
    ([1] : List ErrKind).contains 2 = false ∧
    withPropagated
      (exceptionManagerExit hierEq [1] (some (fun _ => ScopeExit.raises 1)) (some 2)).1
      (some 2) = none ∧
    (exceptionManagerExit hierEq [1] (some (fun _ => ScopeExit.raises 1)) (some 2)).2 =
      false :=
  ⟨rfl, rfl, rfl⟩

/-- C4 amended: a block error whose kind is not in the suppress tuple
propagates out of the attempt exit unchanged, with the attempt not
marked successful, exactly when the scope exit neither raises nor
returns a truthy flag: when there is no scope, or the scope exit returns
a falsy flag. When the scope exit returns a truthy flag the block error
is swallowed and the attempt is marked successful; when the scope exit
raises an error matched by the suppress tuple, both errors are swallowed
and the attempt is unsuccessful; when it raises an unmatched error, that
error replaces the block error. -/
theorem c4_unsuppressed_propagation (hier : Hier) (suppress : List ErrKind) (e : ErrKind)
    (he : suppress.contains e = false) :
    (withPropagated (exceptionManagerExit hier suppress none (some e)).1 (some e) =
        some e ∧
      (exceptionManagerExit hier suppress none (some e)).2 = false) ∧
    (∀ sexit : Option ErrKind → ScopeExit, sexit (some e) = ScopeExit.returns false →
      withPropagated (exceptionManagerExit hier suppress (some sexit) (some e)).1
          (some e) = some e ∧
      (exceptionManagerExit hier suppress (some sexit) (some e)).2 = false) ∧
    (∀ sexit : Option ErrKind → ScopeExit, sexit (some e) = ScopeExit.returns true →
      withPropagated (exceptionManagerExit hier suppress (some sexit) (some e)).1
          (some e) = none ∧
      (exceptionManagerExit hier suppress (some sexit) (some e)).2 = true) ∧
    (∀ (sexit : Option ErrKind → ScopeExit) (g : ErrKind),
      sexit (some e) = ScopeExit.raises g → pythonExceptMatch hier suppress g = true →
      withPropagated (exceptionManagerExit hier suppress (some sexit) (some e)).1
          (some e) = none ∧
      (exceptionManagerExit hier suppress (some sexit) (some e)).2 = false) ∧
    (∀ (sexit : Option ErrKind → ScopeExit) (g : ErrKind),
      sexit (some e) = ScopeExit.raises g → pythonExceptMatch hier suppress g = false →
      withPropagated (exceptionManagerExit hier suppress (some sexit) (some e)).1
          (some e) = some g) := by
  have hm : ¬ e ∈ suppress := by simpa using he
  refine ⟨?_, ?_, ?_, ?_, ?_⟩
  · simp [exceptionManagerExit, exceptionManagerExitTail, hm, withPropagated]
  · intro sexit hs
    simp [exceptionManagerExit, exceptionManagerExitTail, hs, hm, withPropagated]
  · intro sexit hs
    simp [exceptionManagerExit, hs, withPropagated]
  · intro sexit g hs hg
    simp [exceptionManagerExit, hs, hg, withPropagated]
  · intro sexit g hs hg
    simp [exceptionManagerExit, hs, hg, withPropagated]

theorem c4_witness :
    ((withPropagated (exceptionManagerExit hierEq [1] none (some 2)).1 (some 2) =
        some 2 ∧
      (exceptionManagerExit hierEq [1] none (some 2)).2 = false) ∧
     (withPropagated
        (exceptionManagerExit hierEq [1] (some (fun _ => ScopeExit.returns false))
          (some 2)).1 (some 2) = some 2 ∧
      (exceptionManagerExit hierEq [1] (some (fun _ => ScopeExit.returns false))
          (some 2)).2 = false) ∧
     (withPropagated
        (exceptionManagerExit hierEq [1] (some (fun _ => ScopeExit.returns true))
          (some 2)).1 (some 2) = none ∧
      (exceptionManagerExit hierEq [1] (some (fun _ => ScopeExit.returns true))
          (some 2)).2 = true) ∧
     withPropagated
        (exceptionManagerExit hierEq [1] (some (fun _ => ScopeExit.raises 3)) (some 2)).1
        (some 2) = some 3) :=
  ⟨(c4_unsuppressed_propagation hierEq [1] 2 rfl).1,
   (c4_unsuppressed_propagation hierEq [1] 2 rfl).2.1 (fun _ => ScopeExit.returns false) rfl,
   (c4_unsuppressed_propagation hierEq [1] 2 rfl).2.2.1 (fun _ => ScopeExit.returns true) rfl,
   (c4_unsuppressed_propagation hierEq [1] 2 rfl).2.2.2.2 (fun _ => ScopeExit.raises 3) 3 rfl
     rfl⟩

/-- C7 counterexample: under a hierarchy where kind 1 is a proper
subclass of the suppressed kind 0, an error of kind 1 raised by the
scope exit is swallowed (the except clause of utils.py:56 matches
instances), while a block-raised error of the same kind 1 propagates
(the in-operator of utils.py:66 tests exact kinds): the two suppression
decisions differ for the same kind and the same suppress tuple. -/
theorem c7_counterexample :
    exceptionManagerExit hierSub [0] (some (fun _ => ScopeExit.raises 1)) none =
      (Sum.inr true, false) ∧
    exceptionManagerExit hierSub [0] none (some 1) = (Sum.inr false, false) ∧
    withPropagated (exceptionManagerExit hierSub [0] none (some 1)).1 (some 1) =
      some 1 :=
  ⟨rfl, rfl, rfl⟩

/-- C7 amended: a scope-exit-raised error is classified by exception
clause (instance) matching while a block-raised error is classified by
exact membership in the suppress tuple; the two decisions coincide for
every kind on which instance matching against the suppress tuple agrees
with exact membership, in particular for every kind that is not a proper
subclass of a suppressed kind. -/
theorem c7_same_suppression_test (hier : Hier) (suppress : List ErrKind) (g : ErrKind)
    (exc : Option ErrKind)
    (hagree : pythonExceptMatch hier suppress g = suppress.contains g) :
    (exceptionManagerExit hier suppress (some (fun _ => ScopeExit.raises g)) exc =
        (Sum.inr true, false) ↔
      exceptionManagerExit hier suppress none (some g) = (Sum.inr true, false)) ∧
    (exceptionManagerExit hier suppress (some (fun _ => ScopeExit.raises g)) exc =
        (Sum.inl g, false) ↔
      exceptionManagerExit hier suppress none (some g) = (Sum.inr false, false)) := by
  rcases h : suppress.contains g with hv | hv
  · rw [exceptionManagerExit, exceptionManagerExit]
    simp [hagree, h, exceptionManagerExitTail]
  · rw [exceptionManagerExit, exceptionManagerExit]
    simp [hagree, h, exceptionManagerExitTail]

theorem c7_witness :
    ((exceptionManagerExit hierEq [0] (some (fun _ => ScopeExit.raises 0)) none =
        (Sum.inr true, false) ↔
      exceptionManagerExit hierEq [0] none (some 0) = (Sum.inr true, false)) ∧
     (exceptionManagerExit hierEq [0] (some (fun _ => ScopeExit.raises 0)) none =
        (Sum.inl 0, false) ↔
      exceptionManagerExit hierEq [0] none (some 0) = (Sum.inr false, false))) :=
  c7_same_suppression_test hierEq [0] 0 none rfl

/-- C5: at the failing input (the retry tuple holding kind 4, delay one
tenth as the module default DELAY, two attempts, the block raising kind
4 on the first attempt) the control flow of both the generator and the
decorator reaches the sleep call exactly once with the configured delay.
In the source neither module imports the time module, so this call
raises a NameError instead of pausing. -/
theorem sleepScenarioRun (delay : ℚ) (h0 : delay ≠ 0) (h1 : 0 < delay) :
    (exception_managers_until_success hierEq [4] delay sleepGenBehavior 2).sleeps =
      [delay] ∧
    (commit_on_success_with_isolation_level hierEq [4] delay sleepDecBehavior 2).sleeps =
      [delay] := by
  constructor
  · show (emusAux hierEq [4] delay sleepGenBehavior 2 2 1).sleeps = [delay]
    simp [emusAux, runAttempt, sleepGenBehavior, exceptionManagerExit,
      exceptionManagerExitTail, withPropagated, h0]
  · show (cosAux hierEq [4] delay sleepDecBehavior 2 2 1).sleeps = [delay]
    simp [cosAux, decTryBody, sleepDecBehavior, pythonExceptMatch, hierEq, h1]

theorem c5_sleep_call_reached :
    (exception_managers_until_success hierEq [4] (1/10) sleepGenBehavior 2).sleeps =
      [1/10] ∧
    (commit_on_success_with_isolation_level hierEq [4] (1/10) sleepDecBehavior 2).sleeps =
      [1/10] :=
  sleepScenarioRun (1/10) (by norm_num) (by norm_num)

/-- C6 counterexample: when the caller includes the nesting error kind in
the retryable kinds, the decorator catches the nesting error raised by
the isolation level setup (the setup call sits inside the try block,
transaction.py:121) and retries: with max_attempts two the wrapper runs
two iterations before surfacing it, so retry budget is consumed and a
further attempt is made. -/
theorem c6_counterexample :
    (commit_on_success_with_isolation_level hierEq [nestingErrorKind] 0
      nestingSetupBehavior 2).iters.length = 2 ∧
    (commit_on_success_with_isolation_level hierEq [nestingErrorKind] 0
      nestingSetupBehavior 2).outcome = DecOutcome.raises nestingErrorKind := by
  constructor <;> rfl

/-- C6 amended: a nesting error raised by the isolation level setup on
the first attempt surfaces immediately with no further attempt and no
block execution: unconditionally on the generator path, where the setup
runs inside enter and is never subject to suppression, whatever the
retryable kinds; on the decorator path provided the nesting error kind
is not matched by the configured retryable kinds (true for the default
DATABASE_EXCEPTIONS), since there the setup runs inside the try block. -/
theorem c6_nesting_error_immediate (hier : Hier) (retry : List ErrKind) (delay : ℚ)
    (b : Behavior) (db : DecBehavior) (N : Int) (hN : 1 ≤ N)
    (hgset : b.setup 1 = some nestingErrorKind)
    (hdset : db.setup 1 = some nestingErrorKind) :
    exception_managers_until_success hier retry delay b N =
      ⟨[⟨1, (if 1 < N.toNat then retry else []), false, false⟩],
       some nestingErrorKind, []⟩ ∧
    (pythonExceptMatch hier retry nestingErrorKind = false →
      commit_on_success_with_isolation_level hier retry delay db N =
        ⟨[⟨1, false⟩], DecOutcome.raises nestingErrorKind, []⟩) := by
  obtain ⟨f, hf⟩ : ∃ f, N.toNat = f + 1 := ⟨N.toNat - 1, by omega⟩
  constructor
  · rw [exception_managers_until_success, hf, emusAux, runAttempt, hgset]
  · intro hmatch
    rw [commit_on_success_with_isolation_level, hf, cosAux, decTryBody, hdset]
    simp [hmatch]

theorem c6_witness :
    (exception_managers_until_success hierEq [nestingErrorKind] 0
      (⟨fun _ => isolationSetupError 0 2, false, fun _ => none,
        fun _ _ => ScopeExit.returns false, fun _ => none⟩ : Behavior) 2 =
      ⟨[⟨1, (if 1 < (2 : Int).toNat then [nestingErrorKind] else []), false, false⟩],
       some nestingErrorKind, []⟩) ∧
    (commit_on_success_with_isolation_level hierEq [7] 0 nestingSetupBehavior 2 =
      ⟨[⟨1, false⟩], DecOutcome.raises nestingErrorKind, []⟩) :=
  ⟨(c6_nesting_error_immediate hierEq [nestingErrorKind] 0
      ⟨fun _ => isolationSetupError 0 2, false, fun _ => none,
       fun _ _ => ScopeExit.returns false, fun _ => none⟩
      nestingSetupBehavior 2 (by decide) rfl rfl).1,
   (c6_nesting_error_immediate hierEq [7] 0
      ⟨fun _ => isolationSetupError 0 2, false, fun _ => none,
       fun _ _ => ScopeExit.returns false, fun _ => none⟩
      nestingSetupBehavior 2 (by decide) rfl rfl).2 rfl⟩

theorem delayGuardEq (delay : ℚ) (h : 0 ≤ delay) :
    (if 0 < delay then [delay] else ([] : List ℚ)) =
      (if delay = 0 then [] else [delay]) := by
  rcases eq_or_lt_of_le h with h0 | h0
  · rw [← h0]
    simp
  · simp [h0, ne_of_gt h0]

theorem emusAux_len_pos (hier : Hier) (retry : List ErrKind) (delay : ℚ)
    (b : Behavior) (m : Nat) :
    ∀ fuel i, 1 ≤ fuel → 1 ≤ (emusAux hier retry delay b m fuel i).attempts.length := by
  intro fuel i hf
  obtain ⟨f, rfl⟩ : ∃ f, fuel = f + 1 := ⟨fuel - 1, by omega⟩
  rw [emusAux]
  rcases hr : runAttempt hier b (if i < m then retry else []) i with ⟨rec, ae⟩
  cases ae with
  | raised e => simp
  | completed =>
    rcases hs : rec.success with hv | hv <;> simp [hs]


theorem emusAux_step_continue (hier : Hier) (retry : List ErrKind) (delay : ℚ)
    (b : Behavior) (m f i : Nat) (rec : AttemptRecord)
    (him : i < m)
    (hrun : runAttempt hier b retry i = (rec, AttemptEnd.completed))
    (hsf : rec.success = false) :
    emusAux hier retry delay b m (f+1) i =
      ⟨rec :: (emusAux hier retry delay b m f (i+1)).attempts,
       (emusAux hier retry delay b m f (i+1)).outcome,
       (if delay = 0 then [] else [delay]) ++
         (emusAux hier retry delay b m f (i+1)).sleeps⟩ := by
  rw [emusAux]
  simp [him, hrun, hsf]

theorem cosAux_step_continue (hier : Hier) (exceptions : List ErrKind) (delay : ℚ)
    (b : DecBehavior) (m f i : Nat) (it : DecIter) (e : ErrKind)
    (hbeq : (i == m) = false)
    (hbody : decTryBody b i = (it, Sum.inl e))
    (hma : pythonExceptMatch hier exceptions e = true) :
    cosAux hier exceptions delay b m (f+1) i =
      ⟨it :: (cosAux hier exceptions delay b m f (i+1)).iters,
       (cosAux hier exceptions delay b m f (i+1)).outcome,
       (if 0 < delay then [delay] else []) ++
         (cosAux hier exceptions delay b m f (i+1)).sleeps⟩ := by
  rw [cosAux]
  simp [hbody, hma, hbeq]

/-- Loop invariant for the path equivalence: under agreement of the two
matching tests on block errors and unmatched setup and enter errors, the
decorator loop and the consumed generator make the same number of
iterations, the same sleeps, and reach corresponding outcomes. -/
theorem c8Aux (hier : Hier) (retry : List ErrKind) (delay : ℚ) (b : DecBehavior) (m : Nat)
    (hdelay : 0 ≤ delay)
    (hsetup : ∀ i e, b.setup i = some e → pythonExceptMatch hier retry e = false)
    (henter : ∀ i e, b.scopeEnter i = some e → pythonExceptMatch hier retry e = false)
    (hagree : ∀ i f, b.func i = some f → b.scopeExit i (some f) = none →
      pythonExceptMatch hier retry f = retry.contains f) :
    ∀ fuel, ∀ i, i + fuel = m + 1 →
      (cosAux hier retry delay b m fuel i).iters.length =
        (emusAux hier retry delay (liftDecBehavior b) m fuel i).attempts.length ∧
      (cosAux hier retry delay b m fuel i).sleeps =
        (emusAux hier retry delay (liftDecBehavior b) m fuel i).sleeps ∧
      (cosAux hier retry delay b m fuel i).outcome =
        expectedDecOutcome b i (emusAux hier retry delay (liftDecBehavior b) m fuel i) := by
  intro fuel
  induction fuel with
  | zero =>
    intro i _
    simp [cosAux, emusAux, expectedDecOutcome]
  | succ f ih =>
    intro i hi
    rcases hsu : b.setup i with _ | e
    · rcases hen : b.scopeEnter i with _ | e
      · -- setup and scope enter clean; classify the pending error of the body
        rcases hfu : b.func i with _ | fv
        · rcases hse : b.scopeExit i none with _ | g
          · -- clean run: the decorator returns the value, the generator stops on success
            simp [cosAux, emusAux, decTryBody, runAttempt, liftDecBehavior, hsu, hen,
              hfu, hse, exceptionManagerExit, exceptionManagerExitTail, withPropagated,
              expectedDecOutcome]
          · -- the scope exit raises g with no pending block error
            rcases Nat.eq_zero_or_pos f with hf0 | hfpos
            · subst hf0
              have him : i = m := by omega
              subst him
              rcases hma : pythonExceptMatch hier retry g with hv | hv <;>
                simp [cosAux, emusAux, decTryBody, runAttempt, liftDecBehavior, hsu, hen,
                  hfu, hse, exceptionManagerExit, exceptionManagerExitTail, withPropagated,
                  expectedDecOutcome, hma, pythonExceptMatch]
            · have him : i < m := by omega
              have hbeq : (i == m) = false := by
                simp only [beq_eq_false_iff_ne]
                omega
              rcases hma : pythonExceptMatch hier retry g with hv | hv
              · simp [cosAux, emusAux, decTryBody, runAttempt, liftDecBehavior, hsu, hen,
                  hfu, hse, exceptionManagerExit, exceptionManagerExitTail, withPropagated,
                  expectedDecOutcome, hma, him]
              · have ihh := ih (i+1) (by omega)
                have hlen := emusAux_len_pos hier retry delay (liftDecBehavior b) m f (i+1)
                  (by omega)
                have hbody : decTryBody b i = (⟨i, true⟩, Sum.inl g) := by
                  simp [decTryBody, hsu, hen, hfu, hse]
                have hrun : runAttempt hier (liftDecBehavior b) retry i =
                    (⟨i, retry, true, false⟩, AttemptEnd.completed) := by
                  simp [runAttempt, liftDecBehavior, hsu, hen, hfu, hse,
                    exceptionManagerExit, withPropagated, hma]
                rw [emusAux_step_continue hier retry delay (liftDecBehavior b) m f i
                    ⟨i, retry, true, false⟩ him hrun rfl,
                  cosAux_step_continue hier retry delay b m f i ⟨i, true⟩ g hbeq hbody hma]
                refine ⟨by simpa using ihh.1, ?_, ?_⟩
                · rw [delayGuardEq delay hdelay, ihh.2.1]
                · rw [ihh.2.2]
                  rcases hout : (emusAux hier retry delay (liftDecBehavior b) m f
                      (i+1)).outcome with _ | e2
                  · simp only [expectedDecOutcome, hout, List.length_cons]
                    have h0 : ¬ (emusAux hier retry delay (liftDecBehavior b) m f
                        (i+1)).attempts.length = 0 := by omega
                    have h1 : ¬ ((emusAux hier retry delay (liftDecBehavior b) m f
                        (i+1)).attempts.length + 1 = 0) := by omega
                    simp only [h0, h1, if_false]
                    have harg : i + 1 +
                        (emusAux hier retry delay (liftDecBehavior b) m f
                          (i+1)).attempts.length - 1 =
                        i + ((emusAux hier retry delay (liftDecBehavior b) m f
                          (i+1)).attempts.length + 1) - 1 := by omega
                    rw [harg]
                  · simp [expectedDecOutcome, hout]
        · rcases hse : b.scopeExit i (some fv) with _ | g
          · -- the block raises fv and the scope exit is silent: the two
            -- matching tests decide, equal by the agreement hypothesis
            have hag := hagree i fv hfu hse
            rcases Nat.eq_zero_or_pos f with hf0 | hfpos
            · subst hf0
              have him : i = m := by omega
              subst him
              rcases hma : pythonExceptMatch hier retry fv with hv | hv <;>
                simp [cosAux, emusAux, decTryBody, runAttempt, liftDecBehavior, hsu, hen,
                  hfu, hse, exceptionManagerExit, exceptionManagerExitTail, withPropagated,
                  expectedDecOutcome, hma, pythonExceptMatch]
            · have him : i < m := by omega
              have hbeq : (i == m) = false := by
                simp only [beq_eq_false_iff_ne]
                omega
              rcases hma : pythonExceptMatch hier retry fv with hv | hv
              · rw [hma] at hag
                have hmem : ¬ fv ∈ retry := by simpa using hag.symm
                simp [cosAux, emusAux, decTryBody, runAttempt, liftDecBehavior, hsu, hen,
                  hfu, hse, exceptionManagerExit, exceptionManagerExitTail, withPropagated,
                  expectedDecOutcome, hma, him, hmem]
              · rw [hma] at hag
                have hmem : fv ∈ retry := by simpa using hag.symm
                have ihh := ih (i+1) (by omega)
                have hlen := emusAux_len_pos hier retry delay (liftDecBehavior b) m f (i+1)
                  (by omega)
                have hbody : decTryBody b i = (⟨i, true⟩, Sum.inl fv) := by
                  simp [decTryBody, hsu, hen, hfu, hse]
                have hrun : runAttempt hier (liftDecBehavior b) retry i =
                    (⟨i, retry, true, false⟩, AttemptEnd.completed) := by
                  simp [runAttempt, liftDecBehavior, hsu, hen, hfu, hse,
                    exceptionManagerExit, exceptionManagerExitTail, withPropagated,
                    hmem]
                rw [emusAux_step_continue hier retry delay (liftDecBehavior b) m f i
                    ⟨i, retry, true, false⟩ him hrun rfl,
                  cosAux_step_continue hier retry delay b m f i ⟨i, true⟩ fv hbeq hbody hma]
                refine ⟨by simpa using ihh.1, ?_, ?_⟩
                · rw [delayGuardEq delay hdelay, ihh.2.1]
                · rw [ihh.2.2]
                  rcases hout : (emusAux hier retry delay (liftDecBehavior b) m f
                      (i+1)).outcome with _ | e2
                  · simp only [expectedDecOutcome, hout, List.length_cons]
                    have h0 : ¬ (emusAux hier retry delay (liftDecBehavior b) m f
                        (i+1)).attempts.length = 0 := by omega
                    have h1 : ¬ ((emusAux hier retry delay (liftDecBehavior b) m f
                        (i+1)).attempts.length + 1 = 0) := by omega
                    simp only [h0, h1, if_false]
                    have harg : i + 1 +
                        (emusAux hier retry delay (liftDecBehavior b) m f
                          (i+1)).attempts.length - 1 =
                        i + ((emusAux hier retry delay (liftDecBehavior b) m f
                          (i+1)).attempts.length + 1) - 1 := by omega
                    rw [harg]
                  · simp [expectedDecOutcome, hout]
          · -- the block raises fv and the scope exit raises g on top of it
            rcases Nat.eq_zero_or_pos f with hf0 | hfpos
            · subst hf0
              have him : i = m := by omega
              subst him
              rcases hma : pythonExceptMatch hier retry g with hv | hv <;>
                simp [cosAux, emusAux, decTryBody, runAttempt, liftDecBehavior, hsu, hen,
                  hfu, hse, exceptionManagerExit, exceptionManagerExitTail, withPropagated,
                  expectedDecOutcome, hma, pythonExceptMatch]
            · have him : i < m := by omega
              have hbeq : (i == m) = false := by
                simp only [beq_eq_false_iff_ne]
                omega
              rcases hma : pythonExceptMatch hier retry g with hv | hv
              · simp [cosAux, emusAux, decTryBody, runAttempt, liftDecBehavior, hsu, hen,
                  hfu, hse, exceptionManagerExit, exceptionManagerExitTail, withPropagated,
                  expectedDecOutcome, hma, him]
              · have ihh := ih (i+1) (by omega)
                have hlen := emusAux_len_pos hier retry delay (liftDecBehavior b) m f (i+1)
                  (by omega)
                have hbody : decTryBody b i = (⟨i, true⟩, Sum.inl g) := by
                  simp [decTryBody, hsu, hen, hfu, hse]
                have hrun : runAttempt hier (liftDecBehavior b) retry i =
                    (⟨i, retry, true, false⟩, AttemptEnd.completed) := by
                  simp [runAttempt, liftDecBehavior, hsu, hen, hfu, hse,
                    exceptionManagerExit, withPropagated, hma]
                rw [emusAux_step_continue hier retry delay (liftDecBehavior b) m f i
                    ⟨i, retry, true, false⟩ him hrun rfl,
                  cosAux_step_continue hier retry delay b m f i ⟨i, true⟩ g hbeq hbody hma]
                refine ⟨by simpa using ihh.1, ?_, ?_⟩
                · rw [delayGuardEq delay hdelay, ihh.2.1]
                · rw [ihh.2.2]
                  rcases hout : (emusAux hier retry delay (liftDecBehavior b) m f
                      (i+1)).outcome with _ | e2
                  · simp only [expectedDecOutcome, hout, List.length_cons]
                    have h0 : ¬ (emusAux hier retry delay (liftDecBehavior b) m f
                        (i+1)).attempts.length = 0 := by omega
                    have h1 : ¬ ((emusAux hier retry delay (liftDecBehavior b) m f
                        (i+1)).attempts.length + 1 = 0) := by omega
                    simp only [h0, h1, if_false]
                    have harg : i + 1 +
                        (emusAux hier retry delay (liftDecBehavior b) m f
                          (i+1)).attempts.length - 1 =
                        i + ((emusAux hier retry delay (liftDecBehavior b) m f
                          (i+1)).attempts.length + 1) - 1 := by omega
                    rw [harg]
                  · simp [expectedDecOutcome, hout]
      · -- the scope enter raises: never caught by the generator; unmatched
        -- for the decorator by hypothesis
        have hm := henter i e hen
        simp [cosAux, emusAux, decTryBody, runAttempt, liftDecBehavior, hsu, hen, hm,
          expectedDecOutcome]
    · -- the setup raises: never caught by the generator; unmatched for the
      -- decorator by hypothesis
      have hm := hsetup i e hsu
      simp [cosAux, emusAux, decTryBody, runAttempt, liftDecBehavior, hsu, hm,
        expectedDecOutcome]

/-- C8 counterexample: with kind 1 a proper subclass of the sole
retryable kind 0 and the decorated function always raising kind 1, the
decorator path retries (its except clause matches instances,
transaction.py:125) and runs the work twice before raising, while the
generator path consumed with the same collaborators propagates at once
after one execution (the in-operator of utils.py:66 does not match the
subclass): the two paths produce different numbers of executions of the
work. -/
theorem c8_counterexample :
    (commit_on_success_with_isolation_level hierSub [0] 0
      subclassRaiseBehavior 2).iters.length = 2 ∧
    (commit_on_success_with_isolation_level hierSub [0] 0
      subclassRaiseBehavior 2).iters.map (fun it => it.funcRan) = [true, true] ∧
    (exception_managers_until_success hierSub [0] 0
      (liftDecBehavior subclassRaiseBehavior) 2).attempts.length = 1 ∧
    (exception_managers_until_success hierSub [0] 0
      (liftDecBehavior subclassRaiseBehavior) 2).outcome = some 1 := by
  refine ⟨?_, ?_, ?_, ?_⟩ <;> decide

/-- C8 amended: the decorator path and the generator path consumed with
the same collaborators produce the same number of attempts, the same
sleeps, and corresponding final outcomes (the same propagated error, or
the value of the work at the successful last attempt), provided setup
and scope-enter errors are not matched by the retryable kinds (with the
defaults they are not) and instance matching agrees with exact
membership on every error the work raises that the scope exit leaves
pending, in particular when no proper subclass of a retryable kind is
raised; without that agreement, or with a matched setup error, the paths
diverge. -/
theorem c8_paths_agree (hier : Hier) (retry : List ErrKind) (delay : ℚ) (b : DecBehavior)
    (N : Int) (hdelay : 0 ≤ delay)
    (hsetup : ∀ i e, b.setup i = some e → pythonExceptMatch hier retry e = false)
    (henter : ∀ i e, b.scopeEnter i = some e → pythonExceptMatch hier retry e = false)
    (hagree : ∀ i f, b.func i = some f → b.scopeExit i (some f) = none →
      pythonExceptMatch hier retry f = retry.contains f) :
    (commit_on_success_with_isolation_level hier retry delay b N).iters.length =
      (exception_managers_until_success hier retry delay (liftDecBehavior b) N).attempts.length ∧
    (commit_on_success_with_isolation_level hier retry delay b N).sleeps =
      (exception_managers_until_success hier retry delay (liftDecBehavior b) N).sleeps ∧
    (commit_on_success_with_isolation_level hier retry delay b N).outcome =
      expectedDecOutcome b 1
        (exception_managers_until_success hier retry delay (liftDecBehavior b) N) :=
  c8Aux hier retry delay b N.toNat hdelay hsetup henter hagree N.toNat 1 (by omega)

theorem c8_witness :
    (commit_on_success_with_isolation_level hierEq [3] 0 agreeingBehavior 3).iters.length =
      (exception_managers_until_success hierEq [3] 0
        (liftDecBehavior agreeingBehavior) 3).attempts.length ∧
    (commit_on_success_with_isolation_level hierEq [3] 0 agreeingBehavior 3).sleeps =
      (exception_managers_until_success hierEq [3] 0
        (liftDecBehavior agreeingBehavior) 3).sleeps ∧
    (commit_on_success_with_isolation_level hierEq [3] 0 agreeingBehavior 3).outcome =
      expectedDecOutcome agreeingBehavior 1
        (exception_managers_until_success hierEq [3] 0
          (liftDecBehavior agreeingBehavior) 3) :=
  c8_paths_agree hierEq [3] 0 agreeingBehavior 3 (by norm_num)
    (fun _ e h => by simp [agreeingBehavior] at h)
    (fun _ e h => by simp [agreeingBehavior] at h)
    (fun _ f _ _ => rfl)
